import Mathlib

/-!
Verification of the Ubuntu image fetcher core (`ubuntu_image_fetcher.py`,
`ubuntu_image_fetcher_starter.py`) against its specification.

The Python code is shallowly embedded: pure helpers become Lean functions on
`String` / `List Char` / `List Nat` (bytes), and the stateful download pipeline
becomes an explicit function from a system state (files on disk, in-memory
ledger, persisted ledger) and a fault model (HEAD outcome, GET transport
errors, write failures, ledger-persist failures) to an outcome, a new state and
an event trace.  The SHA-256 digest is abstracted as a parameter
`hashFn : List Nat → String`: it is some fixed pure function of the downloaded
byte sequence, which is all the claims depend on.
-/

/-- Set of characters Python's `str.strip('"\x27')` removes in
`extract_filename` (double quote and apostrophe). -/
def stripQuoteChars : List Char := ['"', Char.ofNat 39]

/-- Strip the given characters from both ends of a character list, like
Python's `str.strip(chars)`. -/
def pyStripChars (chars : List Char) (l : List Char) : List Char :=
  ((l.dropWhile (fun c => c ∈ chars)).reverse.dropWhile (fun c => c ∈ chars)).reverse

/-- Substring containment test, Python's `sub in s`. -/
def containsSub (s sub : String) : Bool :=
  decide (List.IsInfix sub.toList s.toList)

/-- Decimal value of a list of digit characters (most significant first). -/
def natOfDigits (l : List Char) : Nat :=
  l.foldl (fun a c => 10 * a + (c.toNat - 48)) 0

/-- Model of Python `int(s)` on a decimal string: strip whitespace, optional
sign, then a nonempty run of digits; anything else raises `ValueError`,
modelled as `none`. -/
def pyInt? (s : String) : Option Int :=
  let l := (s.toList.dropWhile Char.isWhitespace).reverse.dropWhile Char.isWhitespace |>.reverse
  match l with
  | [] => none
  | c :: rest =>
    let signDigits : Int × List Char :=
      if c = '+' then (1, rest) else if c = '-' then (-1, rest) else (1, c :: rest)
    if signDigits.2 ≠ [] ∧ signDigits.2.all Char.isDigit then
      some (signDigits.1 * (natOfDigits signDigits.2 : Int))
    else none

/-- Index of the last occurrence of `c` in `l`, Python's `str.rfind`
(`none` for -1). -/
def lastIdxOf (c : Char) (l : List Char) : Option Nat :=
  match l.reverse.findIdx? (· = c) with
  | none => none
  | some i => some (l.length - 1 - i)

/-- Python `str.partition(sep)` for a single-character separator: text before
the first occurrence, whether it was found, text after it. -/
def pyPartition (sep : Char) (l : List Char) : List Char × Bool × List Char :=
  match l.findIdx? (· = sep) with
  | some i => (l.take i, true, l.drop (i + 1))
  | none => (l, false, [])

/-- The third component of Python `str.rpartition(sep)`: text after the last
occurrence of `sep`, or the whole string when `sep` is absent. -/
def pyRPartAfter (sep : Char) (l : List Char) : List Char :=
  match lastIdxOf sep l with
  | some i => l.drop (i + 1)
  | none => l

/-- Characters permitted in a URL scheme by `urllib.parse` (ASCII letters,
digits, `+`, `-`, `.`). -/
def schemeChar (c : Char) : Bool :=
  c.isAlpha || c.isDigit || c = '+' || c = '-' || c = '.'

/-- Scheme-splitting step of `urllib.parse.urlsplit`: a valid scheme is a
nonempty prefix before the first `:`, starting with a letter and made of
scheme characters; it is returned lowercased together with the remainder. -/
def splitScheme (l : List Char) : Option (List Char) × List Char :=
  match l.findIdx? (· = ':') with
  | some i =>
    if (decide (0 < i) && (match l.head? with | some c => c.isAlpha | none => false)
        && (l.take i).all schemeChar) = true then
      (some ((l.take i).map Char.toLower), l.drop (i + 1))
    else (none, l)
  | none => (none, l)

/-- Model of `urllib.parse.urlsplit` restricted to the parts the fetcher
reads: the (lowercased) scheme, the raw network location, and the path. -/
def pyUrlsplit (url : String) : Option String × Option String × String :=
  let (scheme, rest) := splitScheme url.toList
  let (netloc, rest2) :=
    if rest.take 2 = ['/', '/'] then
      let nl := (rest.drop 2).takeWhile (fun c => c ≠ '/' ∧ c ≠ '?' ∧ c ≠ '#')
      (some nl, (rest.drop 2).drop nl.length)
    else (none, rest)
  let path := (rest2.takeWhile (· ≠ '#')).takeWhile (· ≠ '?')
  (scheme.map String.mk, netloc.map String.mk, String.mk path)

/-- Hostname extraction from a netloc, mirroring `urllib.parse`'s
`_hostinfo`: drop userinfo up to the last `@`, handle a bracketed IPv6
literal, drop the port, lowercase; an empty hostname is `None`. -/
def hostnameOf (netloc : String) : Option String :=
  let hostinfo := pyRPartAfter '@' netloc.toList
  let brkt := pyPartition '[' hostinfo
  let host :=
    if brkt.2.1 then (pyPartition ']' brkt.2.2).1
    else (pyPartition ':' hostinfo).1
  if host = [] then none else some (String.mk (host.map Char.toLower))

/-- The `parsed.scheme` the fetcher compares against, with `none` standing
for a missing scheme (Python's `''`). -/
def url_scheme (url : String) : Option String := (pyUrlsplit url).1

/-- The `parsed.hostname` the fetcher compares against (`none` when there is
no netloc or the host part is empty). -/
def url_hostname (url : String) : Option String :=
  match (pyUrlsplit url).2.1 with
  | none => none
  | some nl => hostnameOf nl

/-- The `parsed.path` used for URL-derived filenames. -/
def url_path (url : String) : String := (pyUrlsplit url).2.2

/-- Embedding of `UbuntuImageFetcher.is_valid_url`: only `http`/`https`
schemes, and the hostname must not be `localhost`, `127.0.0.1` or
`0.0.0.0`. -/
def is_valid_url (url : String) : Bool :=
  if url_scheme url ≠ some "http" ∧ url_scheme url ≠ some "https" then false
  else
    match url_hostname url with
    | some h => ¬(h = "localhost" ∨ h = "127.0.0.1" ∨ h = "0.0.0.0")
    | none => true

/-- Embedding of `UbuntuImageFetcher.is_safe_filename`: no dangerous
substring and fewer than 255 characters. -/
def is_safe_filename (filename : String) : Bool :=
  let dangerous : List String :=
    ["..", "/", "\\", ":", "*", "?", "\"", "<", ">", "|"]
  !(dangerous.any (fun d => containsSub filename d)) && decide (filename.length < 255)

/-- The content-type allow list `allowed_content_types` from the fetcher's
constructor. -/
def allowed_content_types : List String :=
  ["image/jpeg", "image/jpg", "image/png", "image/gif",
   "image/bmp", "image/webp", "image/svg+xml", "image/tiff"]

/-- The normalised content type the fetcher computes:
`headers.get('Content-Type', '').lower().split(';')[0]`. -/
def ctype_part (ct : Option String) : String :=
  String.mk (((ct.getD "").toList.map Char.toLower).takeWhile (· ≠ ';'))

/-- Embedding of `UbuntuImageFetcher.get_extension_from_content_type`. -/
def get_extension_from_content_type (content_type : String) : String :=
  let extensions : List (String × String) :=
    [("image/jpeg", ".jpg"), ("image/jpg", ".jpg"), ("image/png", ".png"),
     ("image/gif", ".gif"), ("image/bmp", ".bmp"), ("image/webp", ".webp"),
     ("image/svg+xml", ".svg"), ("image/tiff", ".tiff")]
  match extensions.find? (fun p => p.1 = content_type) with
  | some p => p.2
  | none => ".jpg"

/-- HTTP response as the pipeline sees it: status code, the headers the code
reads, and the downloaded byte sequence (bytes as `Nat`s). -/
structure Response where
  status : Nat
  contentType : Option String
  contentLength : Option String
  contentDisposition : Option String
  content : List Nat
deriving DecidableEq

/-- Rejection reasons and failure kinds `download_image` can produce; each
constructor corresponds to one `return False` site (distinguished in the
source by its printed diagnostic) or to the final success return. -/
inductive Outcome where
  | success (path : String) (size : Nat)
  | invalidUrl
  | rejectedContentType
  | rejectedTooLargeHeader
  | rejectedDuplicate
  | rejectedTooLargeDeclared
  | rejectedTooLargeStream
  | rejectedEmpty
  | failTimeout
  | failConnection
  | failHttp
  | failRedirects
  | failRequest
  | failIO
  | failUnexpected
deriving DecidableEq

/-- Embedding of `UbuntuImageFetcher.validate_response_headers`: reject a
non-empty content type outside the allow list; reject a parseable declared
Content-Length above the maximum; an unparseable length is ignored
(`except ValueError: pass`).  Returns `none` when the response passes. -/
def validate_response_headers (maxFileSize : Nat) (resp : Response) : Option Outcome :=
  let content_type := ctype_part resp.contentType
  if content_type ≠ "" ∧ content_type ∉ allowed_content_types then
    some Outcome.rejectedContentType
  else
    match resp.contentLength with
    | some cl =>
      if cl ≠ "" then
        match pyInt? cl with
        | some size => if size > (maxFileSize : Int) then some Outcome.rejectedTooLargeHeader else none
        | none => none
      else none
    | none => none

/-- The candidate filename taken from the `Content-Disposition` header:
`content_disposition.split('filename=')[1].strip('"\x27')`, present only when
the header contains `filename=`. -/
def cd_candidate (resp : Response) : Option String :=
  let cd := resp.contentDisposition.getD ""
  if containsSub cd "filename=" then
    some (String.mk (pyStripChars stripQuoteChars (((cd.splitOn "filename=").getD 1 "").toList)))
  else none

/-- The candidate filename taken from the URL:
`os.path.basename(urlparse(url).path)`. -/
def url_candidate (url : String) : String :=
  let p := (url_path url).toList
  match lastIdxOf '/' p with
  | some i => String.mk (p.drop (i + 1))
  | none => String.mk p

/-- Embedding of `UbuntuImageFetcher.extract_filename`: prefer a safe
`Content-Disposition` filename, then the URL basename (generating
`image_<timestamp><ext>` when it is empty or has no extension), and fall back
to `safe_image_<timestamp>.jpg` when the candidate is unsafe.  `now` is the
`datetime.now().strftime('%Y%m%d_%H%M%S')` timestamp. -/
def extract_filename (url : String) (resp : Response) (now : String) : String :=
  let fromCD : Option String :=
    match cd_candidate resp with
    | some c => if c ≠ "" ∧ is_safe_filename c then some c else none
    | none => none
  match fromCD with
  | some c => c
  | none =>
    let filename := url_candidate url
    let filename :=
      if filename = "" ∨ ¬containsSub filename "." then
        "image_" ++ now ++ get_extension_from_content_type (ctype_part resp.contentType)
      else filename
    if is_safe_filename filename then filename
    else "safe_image_" ++ now ++ ".jpg"

/-- Embedding of `os.path.splitext` (with `/` as the separator): split at the
last dot, unless every character between the start of the base name and that
dot is itself a dot. -/
def splitext (p : String) : String × String :=
  let l := p.toList
  match lastIdxOf '.' l with
  | none => (p, "")
  | some d =>
    let sepIdx : Option Nat := lastIdxOf '/' l
    let startIdx : Nat := match sepIdx with | none => 0 | some s => s + 1
    let dotOk : Bool := match sepIdx with | none => true | some s => decide (s < d)
    if dotOk && ((l.drop startIdx).take (d - startIdx)).any (· ≠ '.') then
      (String.mk (l.take d), String.mk (l.drop d))
    else (p, "")

/-- Path join `os.path.flatten(directory, filename)` for a separator-free
directory name. -/
def mkPath (dir filename : String) : String := dir ++ "/" ++ filename

/-- The probe filename `f"{name}_{counter}{ext}"` used by
`get_unique_filepath`. -/
def probeName (name ext : String) (counter : Nat) : String :=
  name ++ "_" ++ Nat.repr counter ++ ext

/-- The `while os.path.exists(filepath)` probing loop of
`get_unique_filepath`, with explicit fuel; `snap` is the directory snapshot
(the set of paths that exist).  With fuel at least `snap.length + 1` the loop
always reaches an unused path (see `probeLoop_spec`). -/
def probeLoop (snap : List String) (dir name ext : String) : Nat → Nat → String
  | 0, counter => mkPath dir (probeName name ext counter)
  | fuel + 1, counter =>
    let fp := mkPath dir (probeName name ext counter)
    if fp ∈ snap then probeLoop snap dir name ext fuel (counter + 1) else fp

/-- Embedding of `get_unique_filepath` (identical in both source variants):
return `directory/filename` if unused, otherwise probe `stem_1.ext`,
`stem_2.ext`, … from 1. -/
def get_unique_filepath (snap : List String) (dir filename : String) : String :=
  let filepath := mkPath dir filename
  if filepath ∈ snap then
    let se := splitext filename
    probeLoop snap dir se.1 se.2 (snap.length + 1) 1
  else filepath

/-- Numeric value of a decimal digit character. -/
def digitVal (c : Char) : Nat := c.toNat - 48

theorem digitVal_digitChar (d : Nat) (h : d < 10) :
    digitVal (Nat.digitChar d) = d := by
  interval_cases d <;> decide

theorem foldl_toDigitsCore (fuel : Nat) :
    ∀ n ds, n < fuel →
      List.foldl (fun a c => 10 * a + digitVal c) 0 (Nat.toDigitsCore 10 fuel n ds) =
        List.foldl (fun a c => 10 * a + digitVal c) n ds := by
  induction fuel with
  | zero => intro n ds h; omega
  | succ fuel ih =>
    intro n ds h
    rw [Nat.toDigitsCore]
    by_cases hdiv : n / 10 = 0
    · have hn : n < 10 := by omega
      simp only [hdiv, if_true, List.foldl_cons]
      have hmod : n % 10 = n := Nat.mod_eq_of_lt hn
      rw [hmod, digitVal_digitChar n hn]
      norm_num
    · simp only [hdiv, if_false]
      have hlt : n / 10 < fuel := by
        have h1 : n / 10 < n := Nat.div_lt_self (by omega) (by omega)
        omega
      rw [ih (n / 10) (Nat.digitChar (n % 10) :: ds) hlt]
      simp only [List.foldl_cons]
      rw [digitVal_digitChar (n % 10) (Nat.mod_lt n (by omega))]
      have : 10 * (n / 10) + n % 10 = n := by omega
      rw [this]

theorem natRepr_injective : Function.Injective Nat.repr := by
  intro m n h
  have hdig : Nat.toDigits 10 m = Nat.toDigits 10 n := by
    have := congrArg String.data h
    simpa [Nat.repr, List.asString] using this
  have hm := foldl_toDigitsCore (m + 1) m [] (Nat.lt_succ_self m)
  have hn := foldl_toDigitsCore (n + 1) n [] (Nat.lt_succ_self n)
  simp only [List.foldl_nil] at hm hn
  rw [← hm, ← hn, ← Nat.toDigits, ← Nat.toDigits, hdig]

theorem probePath_injective (dir name ext : String) :
    Function.Injective (fun c => mkPath dir (probeName name ext c)) := by
  intro a b h
  simp only [mkPath, probeName] at h
  have h2 := congrArg String.data h
  simp only [String.data_append] at h2
  have h4 : (Nat.repr a).data = (Nat.repr b).data := by
    simpa [List.append_assoc] using h2
  exact natRepr_injective (String.ext h4)

theorem probe_exists (snap : List String) (dir name ext : String) :
    ∃ i < snap.length + 1, mkPath dir (probeName name ext (1 + i)) ∉ snap := by
  by_contra hcon
  push_neg at hcon
  have nodup : ((List.range (snap.length + 1)).map
      (fun i => mkPath dir (probeName name ext (1 + i)))).Nodup := by
    refine List.Nodup.map ?_ (List.nodup_range _)
    intro a b hab
    have := probePath_injective dir name ext hab
    omega
  have sub : ((List.range (snap.length + 1)).map
      (fun i => mkPath dir (probeName name ext (1 + i)))) ⊆ snap := by
    intro x hx
    obtain ⟨i, hi, rfl⟩ := List.mem_map.mp hx
    exact hcon i (List.mem_range.mp hi)
  have := List.Subperm.length_le (List.subperm_of_subset nodup sub)
  simp only [List.length_map, List.length_range] at this
  omega

theorem probeLoop_spec (snap : List String) (dir name ext : String) :
    ∀ fuel counter,
      (∃ i < fuel, mkPath dir (probeName name ext (counter + i)) ∉ snap) →
      ∃ j, probeLoop snap dir name ext fuel counter =
            mkPath dir (probeName name ext (counter + j)) ∧
          mkPath dir (probeName name ext (counter + j)) ∉ snap ∧
          ∀ i < j, mkPath dir (probeName name ext (counter + i)) ∈ snap := by
  intro fuel
  induction fuel with
  | zero =>
    intro counter h
    obtain ⟨i, hi, _⟩ := h
    omega
  | succ fuel ih =>
    intro counter h
    rw [probeLoop]
    by_cases hmem : mkPath dir (probeName name ext counter) ∈ snap
    · simp only [hmem, if_true]
      obtain ⟨i, hi, hnot⟩ := h
      have hi0 : i ≠ 0 := by
        intro h0; rw [h0, Nat.add_zero] at hnot; exact hnot hmem
      obtain ⟨i', rfl⟩ := Nat.exists_eq_succ_of_ne_zero hi0
      have hrec : ∃ i < fuel, mkPath dir (probeName name ext (counter + 1 + i)) ∉ snap := by
        refine ⟨i', by omega, ?_⟩
        have : counter + 1 + i' = counter + (i' + 1) := by omega
        rw [this]; exact hnot
      obtain ⟨j', heq, hj'not, hj'min⟩ := ih (counter + 1) hrec
      refine ⟨j' + 1, ?_, ?_, ?_⟩
      · rw [heq]
        exact congrArg (fun k => mkPath dir (probeName name ext k)) (by omega)
      · have : counter + (j' + 1) = counter + 1 + j' := by omega
        rw [this]; exact hj'not
      · intro i hij
        cases i with
        | zero => simpa using hmem
        | succ i'' =>
          have : counter + (i'' + 1) = counter + 1 + i'' := by omega
          rw [this]; exact hj'min i'' (by omega)
    · rw [if_neg hmem]
      exact ⟨0, by rw [Nat.add_zero], by rw [Nat.add_zero]; exact hmem, by omega⟩

theorem get_unique_filepath_not_mem (snap : List String) (dir filename : String) :
    get_unique_filepath snap dir filename ∉ snap := by
  rw [get_unique_filepath]
  by_cases hmem : mkPath dir filename ∈ snap
  · simp only [hmem, if_true]
    obtain ⟨i, hi, hnot⟩ := probe_exists snap dir (splitext filename).1 (splitext filename).2
    have hex : ∃ i < snap.length + 1,
        mkPath dir (probeName (splitext filename).1 (splitext filename).2 (1 + i)) ∉ snap :=
      ⟨i, hi, hnot⟩
    obtain ⟨j, heq, hjnot, _⟩ := probeLoop_spec snap dir (splitext filename).1
      (splitext filename).2 (snap.length + 1) 1 hex
    rw [heq]; exact hjnot
  · rw [if_neg hmem]; exact hmem

/-- JSON document model for the metadata ledger file. -/
inductive Json where
  | null
  | bool (b : Bool)
  | num (n : Int)
  | str (s : String)
  | arr (elems : List Json)
  | obj (fields : List (String × Json))

/-- One record of `download_metadata.json`, as built in
`save_download_metadata`. -/
structure LedgerEntry where
  hash : String
  url : String
  filepath : String
  file_size : Int
  download_date : String
deriving DecidableEq

/-- Lookup of a key in a JSON object, Python's `record[key]`. -/
def jLookup (fields : List (String × Json)) (key : String) : Option Json :=
  (fields.find? (fun p => p.1 = key)).map Prod.snd

/-- Serialisation of one ledger record, with the exact key order of the
`metadata` dict literal in `save_download_metadata`. -/
def entryToJson (e : LedgerEntry) : Json :=
  Json.obj [("hash", Json.str e.hash), ("url", Json.str e.url),
            ("filepath", Json.str e.filepath), ("file_size", Json.num e.file_size),
            ("download_date", Json.str e.download_date)]

/-- Serialisation of the whole ledger: `json.dump(self.downloaded_hashes, f)`
writes a JSON array of records. -/
def ledgerToJson (l : List LedgerEntry) : Json :=
  Json.arr (l.map entryToJson)

/-- Reading one record back from the JSON document: the record must be an
object carrying the string fields `hash`, `url`, `filepath`,
`download_date` and the integer field `file_size`. -/
def entryOfJson? (j : Json) : Option LedgerEntry :=
  match j with
  | Json.obj fields =>
    match jLookup fields "hash", jLookup fields "url", jLookup fields "filepath",
        jLookup fields "file_size", jLookup fields "download_date" with
    | some (Json.str h), some (Json.str u), some (Json.str fp),
        some (Json.num sz), some (Json.str d) =>
      some ⟨h, u, fp, sz, d⟩
    | _, _, _, _, _ => none
  | _ => none

/-- Reading a list of records back from a JSON array. -/
def entriesOfJson? : List Json → Option (List LedgerEntry)
  | [] => some []
  | j :: rest =>
    match entryOfJson? j, entriesOfJson? rest with
    | some e, some es => some (e :: es)
    | _, _ => none

/-- Reading the ledger document (`json.load` in `load_download_history`,
interpreted against the persisted-state contract). -/
def jsonToLedger? (j : Json) : Option (List LedgerEntry) :=
  match j with
  | Json.arr xs => entriesOfJson? xs
  | _ => none

theorem entryOfJson_entryToJson (e : LedgerEntry) :
    entryOfJson? (entryToJson e) = some e := by
  rfl

theorem entriesOfJson_map (l : List LedgerEntry) :
    entriesOfJson? (l.map entryToJson) = some l := by
  induction l with
  | nil => rfl
  | cons e rest ih =>
    simp only [List.map_cons, entriesOfJson?, entryOfJson_entryToJson, ih]

/-- Download directory name fixed in the fetcher's constructor. -/
def download_dir : String := "Fetched_Images"

/-- The 50 MiB size ceiling `max_file_size = 50 * 1024 * 1024`. -/
def max_file_size : Nat := 50 * 1024 * 1024

/-- The `iter_content` chunk size. -/
def chunk_size : Nat := 8192

/-- Embedding of `UbuntuImageFetcher.is_duplicate`: scan the in-memory ledger
for a record with the same content hash (the `url` argument of the Python
method is unused). -/
def is_duplicate (content_hash : String) (ledger : List LedgerEntry) : Bool :=
  ledger.any (fun record => record.hash = content_hash)

/-- System state threaded through one pipeline invocation: the files in the
download directory (path with byte content), whether the directory has been
created, the in-memory ledger `downloaded_hashes`, and the ledger as persisted
in `download_metadata.json`. -/
structure SysState where
  dirMade : Bool
  files : List (String × List Nat)
  memLedger : List LedgerEntry
  diskLedger : List LedgerEntry
deriving DecidableEq

/-- Transport-level exceptions the GET request can raise. -/
inductive NetError where
  | timeout
  | connection
  | tooManyRedirects
  | otherRequest
deriving DecidableEq

/-- Fault model of one invocation: the HEAD result (`none` when the HEAD
request raised, which the code tolerates), an exception raised by the GET
request, the index of the body chunk whose `f.write` raises `IOError` (if
any), and whether writing the ledger file fails in
`save_download_metadata`. -/
structure Faults where
  headResult : Option Response
  getError : Option NetError
  writeFailsAt : Option Nat
  ledgerWriteFails : Bool
deriving DecidableEq

/-- Observable actions of one invocation, in order. -/
inductive Event where
  | mkDir
  | headRequest
  | getRequest
  | resolveFilename
  | openFile (p : String)
  | removeFile (p : String)
  | ledgerPersist
  | ledgerWarn
deriving DecidableEq

/-- Effect of `open(filepath, 'wb')` followed by writes: the file at `p` now
holds exactly `c`. -/
def setFile (files : List (String × List Nat)) (p : String) (c : List Nat) :
    List (String × List Nat) :=
  (files.filter (fun e => e.1 ≠ p)) ++ [(p, c)]

/-- Effect of `os.remove(p)`. -/
def removeFileFS (files : List (String × List Nat)) (p : String) :
    List (String × List Nat) :=
  files.filter (fun e => e.1 ≠ p)

/-- Splitting the body into `iter_content(chunk_size=8192)` chunks, with
explicit fuel (any fuel at least `l.length` gives all chunks). -/
def chunksAux (n : Nat) : Nat → List Nat → List (List Nat)
  | 0, _ => []
  | _, [] => []
  | fuel + 1, l => l.take n :: chunksAux n fuel (l.drop n)

/-- The chunk sequence `response.iter_content(chunk_size=8192)` yields. -/
def pyChunks (n : Nat) (l : List Nat) : List (List Nat) := chunksAux n l.length l

/-- Result of the body-writing loop: the file contents on clean completion, an
`IOError` leaving the partial contents in place, or the size-ceiling abort
(after which the file has been deleted). -/
inductive StreamResult where
  | ok (bytes : List Nat)
  | ioError (partialBytes : List Nat)
  | tooLarge
deriving DecidableEq

/-- Embedding of the `for chunk in response.iter_content(...)` loop: write
each non-empty chunk (a write may raise `IOError` at index `failAt`), then
abort when the running byte counter exceeds the maximum. -/
def streamLoop (maxSize : Nat) (failAt : Option Nat) :
    Nat → List Nat → List (List Nat) → StreamResult
  | _, written, [] => StreamResult.ok written
  | idx, written, c :: rest =>
    if c = [] then streamLoop maxSize failAt (idx + 1) written rest
    else if failAt = some idx then StreamResult.ioError written
    else
      let written' := written ++ c
      if written'.length > maxSize then StreamResult.tooLarge
      else streamLoop maxSize failAt (idx + 1) written' rest

/-- The value of `int(response.headers.get('Content-Length', 0))` at line 127:
`0` for a missing header, and `none` when `int()` raises `ValueError` on an
unparseable value. -/
def declared_content_length (resp : Response) : Option Int :=
  match resp.contentLength with
  | none => some 0
  | some cl => pyInt? cl

/-- The unique on-disk path the pipeline writes to:
`filepath = self.get_unique_filepath(self.extract_filename(url, response))`. -/
def resolved_filepath (url : String) (resp : Response) (now : String) (st : SysState) : String :=
  get_unique_filepath (st.files.map Prod.fst) download_dir (extract_filename url resp now)

/-- Steps of `download_image` from the filename resolution on (lines 122-167
of the source): resolve a unique filepath, read the declared Content-Length
(an unparseable value raises `ValueError` here, caught by the generic
`except Exception` handler), reject an oversize declared length, stream the
body, delete empty files, and append the ledger entry (a failing ledger write
is only a warning). -/
def ubuntu_resolve_and_stream (hashFn : List Nat → String) (now nowIso url : String)
    (resp : Response) (faults : Faults) (st : SysState) (ev : List Event) :
    Outcome × SysState × List Event :=
  let content_hash := hashFn resp.content
  let ev := ev ++ [Event.resolveFilename]
  let filepath := resolved_filepath url resp now st
  match declared_content_length resp with
  | none => (Outcome.failUnexpected, st, ev)
  | some file_size =>
    if file_size > (max_file_size : Int) then (Outcome.rejectedTooLargeDeclared, st, ev)
    else
      let ev := ev ++ [Event.openFile filepath]
      match streamLoop max_file_size faults.writeFailsAt 0 [] (pyChunks chunk_size resp.content) with
      | StreamResult.ioError pbytes =>
        (Outcome.failIO, { st with files := setFile st.files filepath pbytes }, ev)
      | StreamResult.tooLarge =>
        (Outcome.rejectedTooLargeStream,
         { st with files := removeFileFS st.files filepath },
         ev ++ [Event.removeFile filepath])
      | StreamResult.ok bytes =>
        if bytes.length = 0 then
          (Outcome.rejectedEmpty,
           { st with files := removeFileFS st.files filepath },
           ev ++ [Event.removeFile filepath])
        else
          let entry : LedgerEntry :=
            ⟨content_hash, url, filepath, (bytes.length : Int), nowIso⟩
          let mem' := st.memLedger ++ [entry]
          if faults.ledgerWriteFails then
            (Outcome.success filepath bytes.length,
             { st with files := setFile st.files filepath bytes, memLedger := mem' },
             ev ++ [Event.ledgerWarn])
          else
            (Outcome.success filepath bytes.length,
             { st with files := setFile st.files filepath bytes,
                       memLedger := mem', diskLedger := mem' },
             ev ++ [Event.ledgerPersist])

/-- Steps of `download_image` from the GET request on (lines 102-120): raise
any transport error, fail on a non-2xx status, validate the response headers,
then check the content hash against the ledger before anything touches the
download directory. -/
def ubuntu_after_head (hashFn : List Nat → String) (now nowIso url : String)
    (resp : Response) (faults : Faults) (st : SysState) (ev : List Event) :
    Outcome × SysState × List Event :=
  let ev := ev ++ [Event.getRequest]
  match faults.getError with
  | some NetError.timeout => (Outcome.failTimeout, st, ev)
  | some NetError.connection => (Outcome.failConnection, st, ev)
  | some NetError.tooManyRedirects => (Outcome.failRedirects, st, ev)
  | some NetError.otherRequest => (Outcome.failRequest, st, ev)
  | none =>
    if 400 ≤ resp.status then (Outcome.failHttp, st, ev)
    else
      match validate_response_headers max_file_size resp with
      | some o => (o, st, ev)
      | none =>
        if is_duplicate (hashFn resp.content) st.memLedger then
          (Outcome.rejectedDuplicate, st, ev)
        else ubuntu_resolve_and_stream hashFn now nowIso url resp faults st ev

/-- Embedding of `UbuntuImageFetcher.download_image` for one URL: create the
download directory, validate the URL, attempt the opportunistic HEAD request
(its failure is non-fatal, and header rejection at HEAD time stops the run),
then continue with the GET.  `hashFn` abstracts the SHA-256 hex digest; `now`
and `nowIso` are the two `datetime.now()` readings (filename timestamp and
ISO ledger date). -/
def download_image (hashFn : List Nat → String) (now nowIso url : String)
    (resp : Response) (faults : Faults) (st : SysState) :
    Outcome × SysState × List Event :=
  let st := { st with dirMade := true }
  let ev := [Event.mkDir]
  if ¬is_valid_url url then (Outcome.invalidUrl, st, ev)
  else
    let ev := ev ++ [Event.headRequest]
    match faults.headResult with
    | some hr =>
      match validate_response_headers max_file_size hr with
      | some o => (o, st, ev)
      | none => ubuntu_after_head hashFn now nowIso url resp faults st ev
    | none => ubuntu_after_head hashFn now nowIso url resp faults st ev

theorem chunksAux_join (n : Nat) (hn : 0 < n) :
    ∀ fuel l, l.length ≤ fuel → (chunksAux n fuel l).flatten = l := by
  intro fuel
  induction fuel with
  | zero =>
    intro l hl
    have : l = [] := List.eq_nil_of_length_eq_zero (by omega)
    subst this; rfl
  | succ fuel ih =>
    intro l hl
    cases l with
    | nil => rfl
    | cons x xs =>
      rw [show chunksAux n (fuel + 1) (x :: xs) =
        (x :: xs).take n :: chunksAux n fuel ((x :: xs).drop n) from rfl]
      simp only [List.flatten_cons]
      rw [ih ((x :: xs).drop n) (by simp only [List.length_drop, List.length_cons] at hl ⊢; omega)]
      exact List.take_append_drop n (x :: xs)

theorem pyChunks_join (n : Nat) (hn : 0 < n) (l : List Nat) :
    (pyChunks n l).flatten = l :=
  chunksAux_join n hn l.length l (Nat.le_refl _)

theorem streamLoop_no_fault (maxSize : Nat) :
    ∀ chunks idx written, written.length ≤ maxSize →
      streamLoop maxSize none idx written chunks =
        if written.length + chunks.flatten.length ≤ maxSize then
          StreamResult.ok (written ++ chunks.flatten)
        else StreamResult.tooLarge := by
  intro chunks
  induction chunks with
  | nil =>
    intro idx written hw
    simp [streamLoop, hw]
  | cons c rest ih =>
    intro idx written hw
    rw [streamLoop]
    by_cases hc : c = []
    · subst hc
      rw [if_pos rfl, ih (idx + 1) written hw]
      simp
    · rw [if_neg hc]
      simp only [reduceCtorEq, if_false]
      by_cases hbig : (written ++ c).length > maxSize
      · rw [if_pos hbig]
        have : ¬(written.length + (c :: rest).flatten.length ≤ maxSize) := by
          simp only [List.flatten_cons, List.length_append] at hbig ⊢
          omega
        rw [if_neg this]
      · rw [if_neg hbig]
        rw [ih (idx + 1) (written ++ c) (by omega)]
        simp only [List.flatten_cons, List.length_append, List.append_assoc]
        have harith : written.length + c.length + rest.flatten.length =
            written.length + (c.length + rest.flatten.length) := by omega
        rw [harith]

theorem streamLoop_ok_bytes (maxSize : Nat) (failAt : Option Nat) :
    ∀ chunks idx written bytes,
      streamLoop maxSize failAt idx written chunks = StreamResult.ok bytes →
      bytes = written ++ chunks.flatten := by
  intro chunks
  induction chunks with
  | nil =>
    intro idx written bytes h
    rw [streamLoop] at h
    cases h
    simp
  | cons c rest ih =>
    intro idx written bytes h
    rw [streamLoop] at h
    by_cases hc : c = []
    · subst hc
      rw [if_pos rfl] at h
      have := ih (idx + 1) written bytes h
      simpa using this
    · rw [if_neg hc] at h
      by_cases hf : failAt = some idx
      · rw [if_pos hf] at h; cases h
      · rw [if_neg hf] at h
        simp only at h
        by_cases hbig : (written ++ c).length > maxSize
        · rw [if_pos hbig] at h; cases h
        · rw [if_neg hbig] at h
          have := ih (idx + 1) (written ++ c) bytes h
          simpa [List.append_assoc] using this

theorem filter_ne_of_not_mem_paths (files : List (String × List Nat)) (p : String)
    (h : p ∉ files.map Prod.fst) :
    files.filter (fun e => e.1 ≠ p) = files := by
  apply List.filter_eq_self.mpr
  intro e he
  simp only [decide_eq_true_eq]
  intro hep
  exact h (List.mem_map.mpr ⟨e, he, hep⟩)

theorem removeFileFS_fresh (files : List (String × List Nat)) (p : String)
    (h : p ∉ files.map Prod.fst) :
    removeFileFS files p = files :=
  filter_ne_of_not_mem_paths files p h

theorem setFile_fresh (files : List (String × List Nat)) (p : String) (c : List Nat)
    (h : p ∉ files.map Prod.fst) :
    setFile files p c = files ++ [(p, c)] := by
  rw [setFile, filter_ne_of_not_mem_paths files p h]

theorem removeFileFS_setFile_fresh (files : List (String × List Nat)) (p : String)
    (c : List Nat) (h : p ∉ files.map Prod.fst) :
    removeFileFS (setFile files p c) p = files := by
  rw [setFile, filter_ne_of_not_mem_paths files p h, removeFileFS]
  rw [List.filter_append]
  rw [filter_ne_of_not_mem_paths files p h]
  simp

theorem resolved_filepath_fresh (url : String) (resp : Response) (now : String)
    (st : SysState) :
    resolved_filepath url resp now st ∉ st.files.map Prod.fst :=
  get_unique_filepath_not_mem _ _ _

theorem download_image_head (hashFn : List Nat → String) (now nowIso url : String)
    (resp : Response) (faults : Faults) (st : SysState)
    (hv : is_valid_url url = true)
    (hh : faults.headResult = none ∨
      ∃ hr, faults.headResult = some hr ∧
        validate_response_headers max_file_size hr = none) :
    download_image hashFn now nowIso url resp faults st =
      ubuntu_after_head hashFn now nowIso url resp faults { st with dirMade := true }
        [Event.mkDir, Event.headRequest] := by
  rw [download_image]
  rw [if_neg (by simp [hv])]
  rcases hh with hnone | ⟨hr, hsome, hval⟩
  · rw [hnone]
    rfl
  · rw [hsome]
    simp only [hval]
    rfl

theorem after_head_reduce (hashFn : List Nat → String) (now nowIso url : String)
    (resp : Response) (faults : Faults) (st : SysState) (ev : List Event)
    (hg : faults.getError = none) (hs : resp.status < 400)
    (hvrh : validate_response_headers max_file_size resp = none)
    (hdup : is_duplicate (hashFn resp.content) st.memLedger = false) :
    ubuntu_after_head hashFn now nowIso url resp faults st ev =
      ubuntu_resolve_and_stream hashFn now nowIso url resp faults st
        (ev ++ [Event.getRequest]) := by
  rw [ubuntu_after_head, hg]
  rw [if_neg (by omega)]
  rw [hvrh]
  simp only [hdup, Bool.false_eq_true, if_false]

theorem after_head_dup (hashFn : List Nat → String) (now nowIso url : String)
    (resp : Response) (faults : Faults) (st : SysState) (ev : List Event)
    (hg : faults.getError = none) (hs : resp.status < 400)
    (hvrh : validate_response_headers max_file_size resp = none)
    (hdup : is_duplicate (hashFn resp.content) st.memLedger = true) :
    ubuntu_after_head hashFn now nowIso url resp faults st ev =
      (Outcome.rejectedDuplicate, st, ev ++ [Event.getRequest]) := by
  rw [ubuntu_after_head, hg]
  rw [if_neg (by omega)]
  rw [hvrh]
  simp only [hdup, if_true]

theorem after_head_reject (hashFn : List Nat → String) (now nowIso url : String)
    (resp : Response) (faults : Faults) (st : SysState) (ev : List Event)
    (o : Outcome)
    (hg : faults.getError = none) (hs : resp.status < 400)
    (hvrh : validate_response_headers max_file_size resp = some o) :
    ubuntu_after_head hashFn now nowIso url resp faults st ev =
      (o, st, ev ++ [Event.getRequest]) := by
  rw [ubuntu_after_head, hg]
  rw [if_neg (by omega)]
  rw [hvrh]

theorem resolve_unexpected (hashFn : List Nat → String) (now nowIso url : String)
    (resp : Response) (faults : Faults) (st : SysState) (ev : List Event)
    (hdl : declared_content_length resp = none) :
    ubuntu_resolve_and_stream hashFn now nowIso url resp faults st ev =
      (Outcome.failUnexpected, st, ev ++ [Event.resolveFilename]) := by
  rw [ubuntu_resolve_and_stream, hdl]

theorem resolve_declared_big (hashFn : List Nat → String) (now nowIso url : String)
    (resp : Response) (faults : Faults) (st : SysState) (ev : List Event) (n : Int)
    (hdl : declared_content_length resp = some n)
    (hbig : n > (max_file_size : Int)) :
    ubuntu_resolve_and_stream hashFn now nowIso url resp faults st ev =
      (Outcome.rejectedTooLargeDeclared, st, ev ++ [Event.resolveFilename]) := by
  rw [ubuntu_resolve_and_stream, hdl]
  simp only [hbig, if_true]

theorem streamLoop_full (content : List Nat) :
    streamLoop max_file_size none 0 [] (pyChunks chunk_size content) =
      if content.length ≤ max_file_size then StreamResult.ok content
      else StreamResult.tooLarge := by
  rw [streamLoop_no_fault max_file_size (pyChunks chunk_size content) 0 []
    (Nat.zero_le _)]
  rw [pyChunks_join chunk_size (by norm_num [chunk_size])]
  simp

theorem resolve_stream_big (hashFn : List Nat → String) (now nowIso url : String)
    (resp : Response) (faults : Faults) (st : SysState) (ev : List Event) (n : Int)
    (hdl : declared_content_length resp = some n)
    (hn : n ≤ (max_file_size : Int))
    (hwf : faults.writeFailsAt = none)
    (hbig : resp.content.length > max_file_size) :
    ubuntu_resolve_and_stream hashFn now nowIso url resp faults st ev =
      (Outcome.rejectedTooLargeStream, st,
       ev ++ [Event.resolveFilename, Event.openFile (resolved_filepath url resp now st),
              Event.removeFile (resolved_filepath url resp now st)]) := by
  have hnb : ¬(n > (max_file_size : Int)) := by omega
  have hsl : streamLoop max_file_size none 0 [] (pyChunks chunk_size resp.content) =
      StreamResult.tooLarge := by
    rw [streamLoop_full, if_neg (by omega)]
  rw [ubuntu_resolve_and_stream]
  simp only [hdl, hwf, hnb, if_false, hsl]
  rw [removeFileFS_fresh st.files _ (resolved_filepath_fresh url resp now st)]
  simp

theorem resolve_empty (hashFn : List Nat → String) (now nowIso url : String)
    (resp : Response) (faults : Faults) (st : SysState) (ev : List Event) (n : Int)
    (hdl : declared_content_length resp = some n)
    (hn : n ≤ (max_file_size : Int))
    (hwf : faults.writeFailsAt = none)
    (hempty : resp.content = []) :
    ubuntu_resolve_and_stream hashFn now nowIso url resp faults st ev =
      (Outcome.rejectedEmpty, st,
       ev ++ [Event.resolveFilename, Event.openFile (resolved_filepath url resp now st),
              Event.removeFile (resolved_filepath url resp now st)]) := by
  have hnb : ¬(n > (max_file_size : Int)) := by omega
  have hsl : streamLoop max_file_size none 0 [] (pyChunks chunk_size resp.content) =
      StreamResult.ok [] := by
    rw [streamLoop_full, hempty]
    simp [max_file_size]
  rw [ubuntu_resolve_and_stream]
  simp only [hdl, hwf, hnb, if_false, hsl, List.length_nil, if_pos]
  rw [removeFileFS_fresh st.files _ (resolved_filepath_fresh url resp now st)]
  simp

theorem resolve_success (hashFn : List Nat → String) (now nowIso url : String)
    (resp : Response) (faults : Faults) (st : SysState) (ev : List Event) (n : Int)
    (hdl : declared_content_length resp = some n)
    (hn : n ≤ (max_file_size : Int))
    (hwf : faults.writeFailsAt = none)
    (hlen : resp.content.length ≤ max_file_size)
    (hne : resp.content ≠ []) :
    ubuntu_resolve_and_stream hashFn now nowIso url resp faults st ev =
      (Outcome.success (resolved_filepath url resp now st) resp.content.length,
       { st with
           files := st.files ++ [(resolved_filepath url resp now st, resp.content)],
           memLedger := st.memLedger ++
             [⟨hashFn resp.content, url, resolved_filepath url resp now st,
               (resp.content.length : Int), nowIso⟩],
           diskLedger :=
             if faults.ledgerWriteFails then st.diskLedger
             else st.memLedger ++
               [⟨hashFn resp.content, url, resolved_filepath url resp now st,
                 (resp.content.length : Int), nowIso⟩] },
       ev ++ [Event.resolveFilename, Event.openFile (resolved_filepath url resp now st),
              if faults.ledgerWriteFails then Event.ledgerWarn else Event.ledgerPersist]) := by
  have hnb : ¬(n > (max_file_size : Int)) := by omega
  have hsl : streamLoop max_file_size none 0 [] (pyChunks chunk_size resp.content) =
      StreamResult.ok resp.content := by
    rw [streamLoop_full, if_pos hlen]
  have hlz : ¬(resp.content.length = 0) := by
    simpa [List.length_eq_zero] using hne
  rw [ubuntu_resolve_and_stream]
  simp only [hdl, hwf, hnb, if_false, hsl, hlz]
  rw [setFile_fresh st.files _ _ (resolved_filepath_fresh url resp now st)]
  by_cases hl : faults.ledgerWriteFails
  · simp [hl]
  · simp [hl]

theorem resolve_inv_files (hashFn : List Nat → String) (now nowIso url : String)
    (resp : Response) (faults : Faults) (st : SysState) (ev : List Event)
    (out : Outcome) (st2 : SysState) (ev2 : List Event)
    (h : ubuntu_resolve_and_stream hashFn now nowIso url resp faults st ev = (out, st2, ev2))
    (hwf : faults.writeFailsAt = none)
    (hout : ∀ p s, out ≠ Outcome.success p s) :
    st2.files = st.files ∧ st2.memLedger = st.memLedger ∧
      st2.diskLedger = st.diskLedger ∧ st2.dirMade = st.dirMade := by
  rw [ubuntu_resolve_and_stream] at h
  rcases hdl : declared_content_length resp with _ | n
  · simp only [hdl, Prod.mk.injEq] at h
    obtain ⟨ho, hst, hev⟩ := h
    subst hst
    exact ⟨rfl, rfl, rfl, rfl⟩
  · simp only [hdl] at h
    by_cases hbig : n > (max_file_size : Int)
    · simp only [hbig, if_true, Prod.mk.injEq] at h
      obtain ⟨ho, hst, hev⟩ := h
      subst hst
      exact ⟨rfl, rfl, rfl, rfl⟩
    · simp only [hbig, if_false] at h
      rw [hwf, streamLoop_full] at h
      by_cases hlen : resp.content.length ≤ max_file_size
      · simp only [hlen, if_true] at h
        by_cases hz : resp.content.length = 0
        · simp only [hz, if_true, Prod.mk.injEq] at h
          obtain ⟨ho, hst, hev⟩ := h
          subst hst
          refine ⟨?_, rfl, rfl, rfl⟩
          exact removeFileFS_fresh st.files _ (resolved_filepath_fresh url resp now st)
        · simp only [hz, if_false] at h
          cases hl : faults.ledgerWriteFails
          · simp only [hl, Bool.false_eq_true, if_false, Prod.mk.injEq] at h
            exact absurd h.1.symm (hout _ _)
          · simp only [hl, eq_self_iff_true, if_true, Prod.mk.injEq] at h
            exact absurd h.1.symm (hout _ _)
      · simp only [hlen, if_false, Prod.mk.injEq] at h
        obtain ⟨ho, hst, hev⟩ := h
        subst hst
        refine ⟨?_, rfl, rfl, rfl⟩
        exact removeFileFS_fresh st.files _ (resolved_filepath_fresh url resp now st)

theorem resolve_inv_ioError (hashFn : List Nat → String) (now nowIso url : String)
    (resp : Response) (faults : Faults) (st : SysState) (ev : List Event)
    (st2 : SysState) (ev2 : List Event)
    (h : ubuntu_resolve_and_stream hashFn now nowIso url resp faults st ev =
      (Outcome.failIO, st2, ev2)) :
    ∃ c, resolved_filepath url resp now st ∉ st.files.map Prod.fst ∧
      st2.files = st.files ++ [(resolved_filepath url resp now st, c)] := by
  rw [ubuntu_resolve_and_stream] at h
  rcases hdl : declared_content_length resp with _ | n
  · simp [hdl] at h
  · simp only [hdl] at h
    by_cases hbig : n > (max_file_size : Int)
    · simp only [hbig, if_true] at h
      simp at h
    · simp only [hbig, if_false] at h
      rcases hsl : streamLoop max_file_size faults.writeFailsAt 0 []
          (pyChunks chunk_size resp.content) with bytes | pb | _
      · simp only [hsl] at h
        by_cases hz : bytes.length = 0
        · simp only [hz, if_true] at h
          simp at h
        · simp only [hz, if_false] at h
          cases hl : faults.ledgerWriteFails
          · simp only [hl, Bool.false_eq_true, if_false] at h
            simp at h
          · simp only [hl, eq_self_iff_true, if_true] at h
            simp at h
      · simp only [hsl, Prod.mk.injEq] at h
        obtain ⟨_, hst, _⟩ := h
        subst hst
        refine ⟨pb, resolved_filepath_fresh url resp now st, ?_⟩
        exact setFile_fresh st.files _ _ (resolved_filepath_fresh url resp now st)
      · simp only [hsl] at h
        simp at h

theorem resolve_inv_success (hashFn : List Nat → String) (now nowIso url : String)
    (resp : Response) (faults : Faults) (st : SysState) (ev : List Event)
    (p : String) (s : Nat) (st2 : SysState) (ev2 : List Event)
    (h : ubuntu_resolve_and_stream hashFn now nowIso url resp faults st ev =
      (Outcome.success p s, st2, ev2)) :
    p = resolved_filepath url resp now st ∧
      st2.memLedger = st.memLedger ++
        [⟨hashFn resp.content, url, p, (s : Int), nowIso⟩] ∧
      p ∈ st2.files.map Prod.fst ∧ st2.dirMade = st.dirMade := by
  rw [ubuntu_resolve_and_stream] at h
  rcases hdl : declared_content_length resp with _ | n
  · simp [hdl] at h
  · simp only [hdl] at h
    by_cases hbig : n > (max_file_size : Int)
    · simp only [hbig, if_true] at h
      simp at h
    · simp only [hbig, if_false] at h
      rcases hsl : streamLoop max_file_size faults.writeFailsAt 0 []
          (pyChunks chunk_size resp.content) with bytes | pb | _
      · simp only [hsl] at h
        by_cases hz : bytes.length = 0
        · simp only [hz, if_true] at h
          simp at h
        · simp only [hz, if_false] at h
          cases hl : faults.ledgerWriteFails
          · simp only [hl, Bool.false_eq_true, if_false, Prod.mk.injEq,
              Outcome.success.injEq] at h
            obtain ⟨⟨hp, hs⟩, hst, _⟩ := h
            subst hst
            refine ⟨hp.symm, ?_, ?_, rfl⟩
            · simp [hp, hs]
            · rw [setFile]
              simp [hp]
          · simp only [hl, eq_self_iff_true, if_true, Prod.mk.injEq,
              Outcome.success.injEq] at h
            obtain ⟨⟨hp, hs⟩, hst, _⟩ := h
            subst hst
            refine ⟨hp.symm, ?_, ?_, rfl⟩
            · simp [hp, hs]
            · rw [setFile]
              simp [hp]
      · simp only [hsl] at h
        simp at h
      · simp only [hsl] at h
        simp at h

theorem vrh_range (m : Nat) (resp : Response) :
    validate_response_headers m resp = none ∨
      validate_response_headers m resp = some Outcome.rejectedContentType ∨
      validate_response_headers m resp = some Outcome.rejectedTooLargeHeader := by
  rw [validate_response_headers]
  by_cases h1 : ctype_part resp.contentType ≠ "" ∧
      ctype_part resp.contentType ∉ allowed_content_types
  · rw [if_pos h1]
    exact Or.inr (Or.inl rfl)
  · rw [if_neg h1]
    rcases hcl : resp.contentLength with _ | cl
    · exact Or.inl rfl
    · by_cases h2 : cl ≠ ""
      · rcases hpi : pyInt? cl with _ | sz
        · simp only [if_pos h2, hpi]
          exact Or.inl trivial
        · by_cases h3 : sz > (m : Int)
          · simp only [if_pos h2, hpi, if_pos h3]
            exact Or.inr (Or.inr trivial)
          · simp only [if_pos h2, hpi, if_neg h3]
            exact Or.inl trivial
      · simp only [if_neg h2]
        exact Or.inl trivial

theorem after_head_inv_files (hashFn : List Nat → String) (now nowIso url : String)
    (resp : Response) (faults : Faults) (st : SysState) (ev : List Event)
    (out : Outcome) (st2 : SysState) (ev2 : List Event)
    (h : ubuntu_after_head hashFn now nowIso url resp faults st ev = (out, st2, ev2))
    (hwf : faults.writeFailsAt = none)
    (hout : ∀ p s, out ≠ Outcome.success p s) :
    st2.files = st.files ∧ st2.memLedger = st.memLedger ∧
      st2.diskLedger = st.diskLedger ∧ st2.dirMade = st.dirMade := by
  rw [ubuntu_after_head] at h
  rcases hge : faults.getError with _ | ne
  · simp only [hge] at h
    by_cases hst4 : 400 ≤ resp.status
    · simp only [hst4, if_true, Prod.mk.injEq] at h
      obtain ⟨_, hst, _⟩ := h
      subst hst
      exact ⟨rfl, rfl, rfl, rfl⟩
    · simp only [hst4, if_false] at h
      rcases hvr : validate_response_headers max_file_size resp with _ | o
      · simp only [hvr] at h
        cases hdup : is_duplicate (hashFn resp.content) st.memLedger
        · simp only [hdup, Bool.false_eq_true, if_false] at h
          exact resolve_inv_files hashFn now nowIso url resp faults st _ out st2 ev2 h hwf hout
        · simp only [hdup, eq_self_iff_true, if_true, Prod.mk.injEq] at h
          obtain ⟨_, hst, _⟩ := h
          subst hst
          exact ⟨rfl, rfl, rfl, rfl⟩
      · simp only [hvr, Prod.mk.injEq] at h
        obtain ⟨_, hst, _⟩ := h
        subst hst
        exact ⟨rfl, rfl, rfl, rfl⟩
  · cases ne <;>
      (simp only [hge, Prod.mk.injEq] at h
       obtain ⟨_, hst, _⟩ := h
       subst hst
       exact ⟨rfl, rfl, rfl, rfl⟩)

theorem after_head_inv_ioError (hashFn : List Nat → String) (now nowIso url : String)
    (resp : Response) (faults : Faults) (st : SysState) (ev : List Event)
    (st2 : SysState) (ev2 : List Event)
    (h : ubuntu_after_head hashFn now nowIso url resp faults st ev =
      (Outcome.failIO, st2, ev2)) :
    ∃ c, resolved_filepath url resp now st ∉ st.files.map Prod.fst ∧
      st2.files = st.files ++ [(resolved_filepath url resp now st, c)] := by
  rw [ubuntu_after_head] at h
  rcases hge : faults.getError with _ | ne
  · simp only [hge] at h
    by_cases hst4 : 400 ≤ resp.status
    · simp only [hst4, if_true] at h
      simp at h
    · simp only [hst4, if_false] at h
      rcases vrh_range max_file_size resp with hvr | hvr | hvr
      · simp only [hvr] at h
        cases hdup : is_duplicate (hashFn resp.content) st.memLedger
        · simp only [hdup, Bool.false_eq_true, if_false] at h
          exact resolve_inv_ioError hashFn now nowIso url resp faults st _ st2 ev2 h
        · simp only [hdup, eq_self_iff_true, if_true] at h
          simp at h
      · simp only [hvr] at h
        simp at h
      · simp only [hvr] at h
        simp at h
  · cases ne <;> simp [hge] at h

theorem after_head_inv_success (hashFn : List Nat → String) (now nowIso url : String)
    (resp : Response) (faults : Faults) (st : SysState) (ev : List Event)
    (p : String) (s : Nat) (st2 : SysState) (ev2 : List Event)
    (h : ubuntu_after_head hashFn now nowIso url resp faults st ev =
      (Outcome.success p s, st2, ev2)) :
    p = resolved_filepath url resp now st ∧
      st2.memLedger = st.memLedger ++
        [⟨hashFn resp.content, url, p, (s : Int), nowIso⟩] ∧
      p ∈ st2.files.map Prod.fst ∧ st2.dirMade = st.dirMade := by
  rw [ubuntu_after_head] at h
  rcases hge : faults.getError with _ | ne
  · simp only [hge] at h
    by_cases hst4 : 400 ≤ resp.status
    · simp only [hst4, if_true] at h
      simp at h
    · simp only [hst4, if_false] at h
      rcases vrh_range max_file_size resp with hvr | hvr | hvr
      · simp only [hvr] at h
        cases hdup : is_duplicate (hashFn resp.content) st.memLedger
        · simp only [hdup, Bool.false_eq_true, if_false] at h
          exact resolve_inv_success hashFn now nowIso url resp faults st _ p s st2 ev2 h
        · simp only [hdup, eq_self_iff_true, if_true] at h
          simp at h
      · simp only [hvr] at h
        simp at h
      · simp only [hvr] at h
        simp at h
  · cases ne <;> simp [hge] at h

theorem download_inv_files (hashFn : List Nat → String) (now nowIso url : String)
    (resp : Response) (faults : Faults) (st : SysState)
    (out : Outcome) (st2 : SysState) (ev2 : List Event)
    (h : download_image hashFn now nowIso url resp faults st = (out, st2, ev2))
    (hwf : faults.writeFailsAt = none)
    (hout : ∀ p s, out ≠ Outcome.success p s) :
    st2.files = st.files ∧ st2.memLedger = st.memLedger ∧
      st2.diskLedger = st.diskLedger := by
  rw [download_image] at h
  cases hv : is_valid_url url
  · simp only [hv, Bool.false_eq_true, not_false_iff, if_true, Prod.mk.injEq] at h
    obtain ⟨_, hst, _⟩ := h
    subst hst
    exact ⟨rfl, rfl, rfl⟩
  · simp only [hv, eq_self_iff_true, not_true, if_false] at h
    rcases hhr : faults.headResult with _ | hr
    · simp only [hhr] at h
      have := after_head_inv_files hashFn now nowIso url resp faults
        { st with dirMade := true } _ out st2 ev2 h hwf hout
      exact ⟨this.1, this.2.1, this.2.2.1⟩
    · simp only [hhr] at h
      rcases hvr : validate_response_headers max_file_size hr with _ | o
      · simp only [hvr] at h
        have := after_head_inv_files hashFn now nowIso url resp faults
          { st with dirMade := true } _ out st2 ev2 h hwf hout
        exact ⟨this.1, this.2.1, this.2.2.1⟩
      · simp only [hvr, Prod.mk.injEq] at h
        obtain ⟨_, hst, _⟩ := h
        subst hst
        exact ⟨rfl, rfl, rfl⟩

theorem download_inv_ioError (hashFn : List Nat → String) (now nowIso url : String)
    (resp : Response) (faults : Faults) (st : SysState)
    (st2 : SysState) (ev2 : List Event)
    (h : download_image hashFn now nowIso url resp faults st =
      (Outcome.failIO, st2, ev2)) :
    ∃ p c, p ∉ st.files.map Prod.fst ∧ st2.files = st.files ++ [(p, c)] := by
  rw [download_image] at h
  cases hv : is_valid_url url
  · simp [hv] at h
  · simp only [hv, eq_self_iff_true, not_true, if_false] at h
    rcases hhr : faults.headResult with _ | hr
    · simp only [hhr] at h
      obtain ⟨c, hfr, hfiles⟩ := after_head_inv_ioError hashFn now nowIso url resp faults
        { st with dirMade := true } _ st2 ev2 h
      exact ⟨_, c, hfr, hfiles⟩
    · simp only [hhr] at h
      rcases vrh_range max_file_size hr with hvr | hvr | hvr
      · simp only [hvr] at h
        obtain ⟨c, hfr, hfiles⟩ := after_head_inv_ioError hashFn now nowIso url resp faults
          { st with dirMade := true } _ st2 ev2 h
        exact ⟨_, c, hfr, hfiles⟩
      · simp only [hvr] at h
        simp at h
      · simp only [hvr] at h
        simp at h

theorem download_inv_success (hashFn : List Nat → String) (now nowIso url : String)
    (resp : Response) (faults : Faults) (st : SysState)
    (p : String) (s : Nat) (st2 : SysState) (ev2 : List Event)
    (h : download_image hashFn now nowIso url resp faults st =
      (Outcome.success p s, st2, ev2)) :
    st2.memLedger = st.memLedger ++
        [⟨hashFn resp.content, url, p, (s : Int), nowIso⟩] ∧
      p ∈ st2.files.map Prod.fst ∧ st2.dirMade = true := by
  rw [download_image] at h
  cases hv : is_valid_url url
  · simp [hv] at h
  · simp only [hv, eq_self_iff_true, not_true, if_false] at h
    rcases hhr : faults.headResult with _ | hr
    · simp only [hhr] at h
      have := after_head_inv_success hashFn now nowIso url resp faults
        { st with dirMade := true } _ p s st2 ev2 h
      exact ⟨this.2.1, this.2.2.1, this.2.2.2⟩
    · simp only [hhr] at h
      rcases vrh_range max_file_size hr with hvr | hvr | hvr
      · simp only [hvr] at h
        have := after_head_inv_success hashFn now nowIso url resp faults
          { st with dirMade := true } _ p s st2 ev2 h
        exact ⟨this.2.1, this.2.2.1, this.2.2.2⟩
      · simp only [hvr] at h
        simp at h
      · simp only [hvr] at h
        simp at h

theorem sysState_set_dirMade (st : SysState) (h : st.dirMade = true) :
    { st with dirMade := true } = st := by
  cases st
  simp_all

theorem is_duplicate_of_mem (hsh : String) (l : List LedgerEntry) (e : LedgerEntry)
    (hmem : e ∈ l) (he : e.hash = hsh) :
    is_duplicate hsh l = true := by
  rw [is_duplicate, List.any_eq_true]
  exact ⟨e, hmem, by simp [he]⟩

theorem vrh_too_large (resp : Response) (cl : String) (n : Int)
    (hct : ctype_part resp.contentType = "" ∨
      ctype_part resp.contentType ∈ allowed_content_types)
    (hcl : resp.contentLength = some cl)
    (hpi : pyInt? cl = some n)
    (hbig : n > (max_file_size : Int)) :
    validate_response_headers max_file_size resp = some Outcome.rejectedTooLargeHeader := by
  rw [validate_response_headers]
  rw [if_neg (by rcases hct with h | h <;> simp [h])]
  have hne : cl ≠ "" := by
    intro h
    rw [h] at hpi
    have hnone : pyInt? "" = none := rfl
    rw [hnone] at hpi
    exact Option.noConfusion hpi
  simp only [hcl]
  rw [if_pos hne]
  simp only [hpi]
  rw [if_pos hbig]

theorem extract_filename_safe (url : String) (resp : Response) (now : String)
    (hnow : is_safe_filename ("safe_image_" ++ now ++ ".jpg") = true) :
    is_safe_filename (extract_filename url resp now) = true := by
  rw [extract_filename]
  rcases hcd : cd_candidate resp with _ | c
  · simp only [hcd]
    by_cases h2 : url_candidate url = "" ∨ ¬containsSub (url_candidate url) "."
    · rw [if_pos h2]
      by_cases h3 : is_safe_filename
          ("image_" ++ now ++ get_extension_from_content_type (ctype_part resp.contentType)) = true
      · rw [if_pos h3]
        exact h3
      · rw [if_neg h3]
        exact hnow
    · rw [if_neg h2]
      by_cases h3 : is_safe_filename (url_candidate url) = true
      · rw [if_pos h3]
        exact h3
      · rw [if_neg h3]
        exact hnow
  · simp only [hcd]
    by_cases hc : c ≠ "" ∧ is_safe_filename c = true
    · rw [if_pos hc]
      exact hc.2
    · rw [if_neg hc]
      by_cases h2 : url_candidate url = "" ∨ ¬containsSub (url_candidate url) "."
      · rw [if_pos h2]
        by_cases h3 : is_safe_filename
            ("image_" ++ now ++ get_extension_from_content_type (ctype_part resp.contentType)) = true
        · rw [if_pos h3]
          exact h3
        · rw [if_neg h3]
          exact hnow
      · rw [if_neg h2]
        by_cases h3 : is_safe_filename (url_candidate url) = true
        · rw [if_pos h3]
          exact h3
        · rw [if_neg h3]
          exact hnow

theorem extract_filename_forms (url : String) (resp : Response) (now : String) :
    (∃ c, cd_candidate resp = some c ∧ extract_filename url resp now = c) ∨
      extract_filename url resp now = url_candidate url ∨
      extract_filename url resp now = "image_" ++ now ++
        get_extension_from_content_type (ctype_part resp.contentType) ∨
      extract_filename url resp now = "safe_image_" ++ now ++ ".jpg" := by
  rw [extract_filename]
  rcases hcd : cd_candidate resp with _ | c
  · simp only [hcd]
    by_cases h2 : url_candidate url = "" ∨ ¬containsSub (url_candidate url) "."
    · rw [if_pos h2]
      by_cases h3 : is_safe_filename
          ("image_" ++ now ++ get_extension_from_content_type (ctype_part resp.contentType)) = true
      · rw [if_pos h3]
        exact Or.inr (Or.inr (Or.inl rfl))
      · rw [if_neg h3]
        exact Or.inr (Or.inr (Or.inr rfl))
    · rw [if_neg h2]
      by_cases h3 : is_safe_filename (url_candidate url) = true
      · rw [if_pos h3]
        exact Or.inr (Or.inl rfl)
      · rw [if_neg h3]
        exact Or.inr (Or.inr (Or.inr rfl))
  · simp only [hcd]
    by_cases hc : c ≠ "" ∧ is_safe_filename c = true
    · rw [if_pos hc]
      exact Or.inl ⟨c, rfl, rfl⟩
    · rw [if_neg hc]
      by_cases h2 : url_candidate url = "" ∨ ¬containsSub (url_candidate url) "."
      · rw [if_pos h2]
        by_cases h3 : is_safe_filename
            ("image_" ++ now ++ get_extension_from_content_type (ctype_part resp.contentType)) = true
        · rw [if_pos h3]
          exact Or.inr (Or.inr (Or.inl rfl))
        · rw [if_neg h3]
          exact Or.inr (Or.inr (Or.inr rfl))
      · rw [if_neg h2]
        by_cases h3 : is_safe_filename (url_candidate url) = true
        · rw [if_pos h3]
          exact Or.inr (Or.inl rfl)
        · rw [if_neg h3]
          exact Or.inr (Or.inr (Or.inr rfl))

/-- Fixed hash function used by the concrete test runs (the digest of every
byte sequence is abstract; any fixed function instantiates it). -/
def zeroHash : List Nat → String := fun _ => "h0"

/-- Fault-free invocation: HEAD raised (tolerated), GET succeeds, all writes
succeed. -/
def noFaults : Faults := ⟨none, none, none, false⟩

/-- Fresh process state: no files, empty ledger. -/
def emptyState : SysState := ⟨false, [], [], []⟩

/-- A well-formed PNG response whose declared Content-Length `"abc"` is not
parseable as an integer. -/
def respC4 : Response := ⟨200, some "image/png", some "abc", none, [1, 2, 3]⟩

/-- A small well-formed PNG response (3 bytes, declared length 3). -/
def respOK : Response := ⟨200, some "image/png", some "3", none, [9, 9, 9]⟩

/-- Claim C4: a response with an unparseable Content-Length is indeed ignored
by `validate_response_headers`, but the claim that the pipeline then continues
to the streaming size check is contradicted by line 127: `int('abc')` raises
`ValueError`, the generic `except Exception` handler reports an unexpected
error and the run fails for that URL (the disagreement between the two sites
marks the unguarded `int()` as the slip). -/
theorem C4_code_bug :
    validate_response_headers max_file_size respC4 = none ∧
    download_image zeroHash "20250101_120000" "2025-01-01T12:00:00"
        "https://example.com/a.png" respC4 noFaults emptyState =
      (Outcome.failUnexpected, ⟨true, [], [], []⟩,
       [Event.mkDir, Event.headRequest, Event.getRequest, Event.resolveFilename]) := by
  decide

/-- Claim C5, counterexample: `127.0.0.2` is a literal loopback IP
(127.0.0.0/8), yet `is_valid_url` accepts it — the validator compares the
hostname against the three exact strings only. -/
theorem C5_counterexample :
    url_hostname "http://127.0.0.2/image.jpg" = some "127.0.0.2" ∧
    is_valid_url "http://127.0.0.2/image.jpg" = true := by
  decide

/-- Claim C5 (amended): for every URL with an http/https scheme whose parsed
hostname is exactly `localhost`, `127.0.0.1` or `0.0.0.0` the validator
rejects it (other literal loopback IPs such as `127.0.0.2` are accepted), and
whenever validation fails no network request (HEAD or GET) is issued. -/
theorem C5_amended :
    (∀ url : String,
      (url_scheme url = some "http" ∨ url_scheme url = some "https") →
      (url_hostname url = some "localhost" ∨ url_hostname url = some "127.0.0.1" ∨
        url_hostname url = some "0.0.0.0") →
      is_valid_url url = false) ∧
    (∀ (hashFn : List Nat → String) (now nowIso url : String) (resp : Response)
        (faults : Faults) (st : SysState),
      is_valid_url url = false →
      (download_image hashFn now nowIso url resp faults st).2.2 = [Event.mkDir]) := by
  constructor
  · intro url hs hh
    rw [is_valid_url]
    rw [if_neg (by rcases hs with h | h <;> simp [h])]
    rcases hh with h2 | h2 | h2 <;> rw [h2] <;> simp
  · intro hashFn now nowIso url resp faults st hv
    simp [download_image, hv]

/-- Witness for C5: the amended theorem applied to the spec's own scenario
`http://localhost/image.jpg`. -/
theorem C5_witness :
    is_valid_url "http://localhost/image.jpg" = false ∧
    (download_image zeroHash "t" "d" "http://localhost/image.jpg" respOK noFaults
      emptyState).2.2 = [Event.mkDir] := by
  refine ⟨?_, ?_⟩
  · exact C5_amended.1 "http://localhost/image.jpg" (Or.inl (by decide))
      (Or.inl (by decide))
  · exact C5_amended.2 zeroHash "t" "d" "http://localhost/image.jpg" respOK noFaults
      emptyState (by decide)

/-- Claim C10: when the content digest matches a ledger entry, the run stops
at the duplicate check: the trace is exactly directory creation, HEAD and GET
— no filename resolution, no file opened, no file removed — and the files and
both ledgers are untouched. -/
theorem C10_duplicate_frame (hashFn : List Nat → String) (now nowIso url : String)
    (resp : Response) (faults : Faults) (st : SysState)
    (hv : is_valid_url url = true)
    (hh : faults.headResult = none ∨
      ∃ hr, faults.headResult = some hr ∧
        validate_response_headers max_file_size hr = none)
    (hg : faults.getError = none) (hs : resp.status < 400)
    (hvrh : validate_response_headers max_file_size resp = none)
    (hdup : is_duplicate (hashFn resp.content) st.memLedger = true) :
    download_image hashFn now nowIso url resp faults st =
      (Outcome.rejectedDuplicate, { st with dirMade := true },
       [Event.mkDir, Event.headRequest, Event.getRequest]) := by
  rw [download_image_head hashFn now nowIso url resp faults st hv hh]
  rw [after_head_dup hashFn now nowIso url resp faults { st with dirMade := true }
    [Event.mkDir, Event.headRequest] hg hs hvrh (by simpa using hdup)]
  rfl

/-- Witness for C10: a concrete duplicate fetch against a one-entry ledger. -/
theorem C10_witness :
    download_image zeroHash "t" "d" "https://example.com/cat_mirror.png" respOK noFaults
      ⟨false, [("Fetched_Images/cat.png", [9, 9, 9])],
       [⟨"h0", "https://example.com/cat.png", "Fetched_Images/cat.png", 3, "iso"⟩],
       [⟨"h0", "https://example.com/cat.png", "Fetched_Images/cat.png", 3, "iso"⟩]⟩ =
      (Outcome.rejectedDuplicate,
       ⟨true, [("Fetched_Images/cat.png", [9, 9, 9])],
        [⟨"h0", "https://example.com/cat.png", "Fetched_Images/cat.png", 3, "iso"⟩],
        [⟨"h0", "https://example.com/cat.png", "Fetched_Images/cat.png", 3, "iso"⟩]⟩,
       [Event.mkDir, Event.headRequest, Event.getRequest]) := by
  exact C10_duplicate_frame zeroHash "t" "d" "https://example.com/cat_mirror.png" respOK
    noFaults _ (by decide) (Or.inl rfl) rfl (by decide) (by decide) (by decide)

/-- Claim C1: once a fetch has been admitted (its entry appended to the
in-memory ledger), a second fetch that downloads the identical byte sequence
— from any URL — is rejected as a duplicate, and the whole state (in-memory
ledger, persisted ledger, download directory) is exactly unchanged: the trace
shows no file was created or removed. -/
theorem C1_duplicate_second_fetch (hashFn : List Nat → String)
    (now1 iso1 now2 iso2 url1 url2 : String) (resp1 resp2 : Response)
    (faults1 faults2 : Faults) (st0 st1 : SysState) (p : String) (s : Nat)
    (ev1 : List Event)
    (h1 : download_image hashFn now1 iso1 url1 resp1 faults1 st0 =
      (Outcome.success p s, st1, ev1))
    (hcontent : resp2.content = resp1.content)
    (hv : is_valid_url url2 = true)
    (hh : faults2.headResult = none ∨ ∃ hr, faults2.headResult = some hr ∧
      validate_response_headers max_file_size hr = none)
    (hg : faults2.getError = none) (hs : resp2.status < 400)
    (hvrh : validate_response_headers max_file_size resp2 = none) :
    download_image hashFn now2 iso2 url2 resp2 faults2 st1 =
      (Outcome.rejectedDuplicate, st1,
       [Event.mkDir, Event.headRequest, Event.getRequest]) := by
  obtain ⟨hmem, hfile, hdm⟩ := download_inv_success hashFn now1 iso1 url1 resp1 faults1
    st0 p s st1 ev1 h1
  have hdup : is_duplicate (hashFn resp2.content) st1.memLedger = true := by
    rw [hcontent, hmem]
    exact is_duplicate_of_mem _ _ ⟨hashFn resp1.content, url1, p, (s : Int), iso1⟩
      (by simp) rfl
  rw [download_image_head hashFn now2 iso2 url2 resp2 faults2 st1 hv hh]
  rw [after_head_dup hashFn now2 iso2 url2 resp2 faults2 { st1 with dirMade := true }
    [Event.mkDir, Event.headRequest] hg hs hvrh (by simpa using hdup)]
  rw [sysState_set_dirMade st1 hdm]
  rfl

/-- Same-content response fetched from a mirror URL. -/
def respMirror : Response := ⟨200, some "image/png", some "3", none, [9, 9, 9]⟩

/-- Ledger entry created by the first concrete admitted fetch. -/
def entryCat : LedgerEntry :=
  ⟨"h0", "https://example.com/cat.png", "Fetched_Images/cat.png", 3,
   "2025-01-01T12:00:00"⟩

/-- State after the first concrete admitted fetch. -/
def stAfterCat : SysState :=
  ⟨true, [("Fetched_Images/cat.png", [9, 9, 9])], [entryCat], [entryCat]⟩

/-- Witness for C1: a concrete admitted fetch followed by a byte-identical
fetch from a different URL. -/
theorem C1_witness :
    download_image zeroHash "20250101_120000" "2025-01-01T12:00:00"
        "https://example.com/cat.png" respOK noFaults emptyState =
      (Outcome.success "Fetched_Images/cat.png" 3, stAfterCat,
       [Event.mkDir, Event.headRequest, Event.getRequest, Event.resolveFilename,
        Event.openFile "Fetched_Images/cat.png", Event.ledgerPersist]) ∧
    download_image zeroHash "20250102_120000" "2025-01-02T12:00:00"
        "https://example.com/cat_mirror.png" respMirror noFaults stAfterCat =
      (Outcome.rejectedDuplicate, stAfterCat,
       [Event.mkDir, Event.headRequest, Event.getRequest]) := by
  have h1 : download_image zeroHash "20250101_120000" "2025-01-01T12:00:00"
      "https://example.com/cat.png" respOK noFaults emptyState =
      (Outcome.success "Fetched_Images/cat.png" 3, stAfterCat,
       [Event.mkDir, Event.headRequest, Event.getRequest, Event.resolveFilename,
        Event.openFile "Fetched_Images/cat.png", Event.ledgerPersist]) := by
    decide
  refine ⟨h1, ?_⟩
  exact C1_duplicate_second_fetch zeroHash "20250101_120000" "2025-01-01T12:00:00"
    "20250102_120000" "2025-01-02T12:00:00" "https://example.com/cat.png"
    "https://example.com/cat_mirror.png" respOK respMirror noFaults noFaults
    emptyState stAfterCat "Fetched_Images/cat.png" 3 _ h1 rfl (by decide)
    (Or.inl rfl) rfl (by decide) (by decide)

/-- Faults of the C2 counterexample: the first chunk write raises `IOError`. -/
def writeFaults : Faults := ⟨none, none, some 0, false⟩

/-- Claim C2, counterexample: an `IOError` raised while writing the body
stream returns the I/O failure with the file created by `open(filepath, 'wb')`
still on disk — the `except IOError` handler performs no cleanup. -/
theorem C2_counterexample :
    download_image zeroHash "t" "d" "https://example.com/a.png" respOK writeFaults
        emptyState =
      (Outcome.failIO, ⟨true, [("Fetched_Images/a.png", [])], [], []⟩,
       [Event.mkDir, Event.headRequest, Event.getRequest, Event.resolveFilename,
        Event.openFile "Fetched_Images/a.png"]) := by
  decide

/-- Claim C2 (amended): with no body-write fault, every invocation that does
not return success leaves the download directory exactly unchanged (covering
the size-ceiling abort and the empty-file check); a persistence failure on the
ledger append keeps the already-validated file; but an `IOError` raised while
writing the body stream returns the error with the partially written file
still on disk. -/
theorem C2_partial_file_cleanup :
    (∀ (hashFn : List Nat → String) (now nowIso url : String) (resp : Response)
        (faults : Faults) (st : SysState) (out : Outcome) (st2 : SysState)
        (ev2 : List Event),
      download_image hashFn now nowIso url resp faults st = (out, st2, ev2) →
      faults.writeFailsAt = none →
      (∀ p s, out ≠ Outcome.success p s) →
      st2.files = st.files) ∧
    (∀ (hashFn : List Nat → String) (now nowIso url : String) (resp : Response)
        (faults : Faults) (st : SysState) (st2 : SysState) (ev2 : List Event),
      download_image hashFn now nowIso url resp faults st =
        (Outcome.failIO, st2, ev2) →
      ∃ p c, p ∉ st.files.map Prod.fst ∧ st2.files = st.files ++ [(p, c)]) ∧
    (∀ (hashFn : List Nat → String) (now nowIso url : String) (resp : Response)
        (faults : Faults) (st : SysState) (p : String) (s : Nat) (st2 : SysState)
        (ev2 : List Event),
      download_image hashFn now nowIso url resp faults st =
        (Outcome.success p s, st2, ev2) →
      p ∈ st2.files.map Prod.fst) := by
  refine ⟨?_, ?_, ?_⟩
  · intro hashFn now nowIso url resp faults st out st2 ev2 h hwf hout
    exact (download_inv_files hashFn now nowIso url resp faults st out st2 ev2 h
      hwf hout).1
  · intro hashFn now nowIso url resp faults st st2 ev2 h
    exact download_inv_ioError hashFn now nowIso url resp faults st st2 ev2 h
  · intro hashFn now nowIso url resp faults st p s st2 ev2 h
    exact (download_inv_success hashFn now nowIso url resp faults st p s st2 ev2
      h).2.1

/-- Witness for C2: the amended theorem applied to three concrete runs — a
rejected fetch with no write fault, the `IOError` run of the counterexample
input, and an admitted fetch. -/
theorem C2_witness :
    (⟨true, [], [], []⟩ : SysState).files = emptyState.files ∧
    (∃ p c, p ∉ emptyState.files.map Prod.fst ∧
      (⟨true, [("Fetched_Images/a.png", [])], [], []⟩ : SysState).files =
        emptyState.files ++ [(p, c)]) ∧
    "Fetched_Images/cat.png" ∈ stAfterCat.files.map Prod.fst := by
  refine ⟨?_, ?_, ?_⟩
  · exact C2_partial_file_cleanup.1 zeroHash "t" "d" "http://localhost/a.jpg" respOK
      noFaults emptyState Outcome.invalidUrl ⟨true, [], [], []⟩ [Event.mkDir]
      (by decide) rfl (fun p s h => Outcome.noConfusion h)
  · exact C2_partial_file_cleanup.2.1 zeroHash "t" "d" "https://example.com/a.png"
      respOK writeFaults emptyState ⟨true, [("Fetched_Images/a.png", [])], [], []⟩
      [Event.mkDir, Event.headRequest, Event.getRequest, Event.resolveFilename,
       Event.openFile "Fetched_Images/a.png"] (by decide)
  · exact C2_partial_file_cleanup.2.2 zeroHash "20250101_120000"
      "2025-01-01T12:00:00" "https://example.com/cat.png" respOK noFaults emptyState
      "Fetched_Images/cat.png" 3 stAfterCat
      [Event.mkDir, Event.headRequest, Event.getRequest, Event.resolveFilename,
       Event.openFile "Fetched_Images/cat.png", Event.ledgerPersist] (by decide)

/-- Claim C3: (a) a declared Content-Length that parses above the 50 MiB
ceiling is rejected as too large at header validation, before any file is
opened, leaving the directory unchanged; (b) when the declared length passes
but the streamed byte count exceeds the ceiling, the run aborts with the
streaming too-large rejection and no partial file remains on disk. -/
theorem C3_size_ceiling :
    (∀ (hashFn : List Nat → String) (now nowIso url : String) (resp : Response)
        (faults : Faults) (st : SysState) (cl : String) (n : Int),
      is_valid_url url = true →
      (faults.headResult = none ∨ faults.headResult = some resp) →
      faults.getError = none → resp.status < 400 →
      (ctype_part resp.contentType = "" ∨
        ctype_part resp.contentType ∈ allowed_content_types) →
      resp.contentLength = some cl → pyInt? cl = some n →
      n > (max_file_size : Int) →
      (download_image hashFn now nowIso url resp faults st).1 =
          Outcome.rejectedTooLargeHeader ∧
        (download_image hashFn now nowIso url resp faults st).2.1.files = st.files ∧
        (∀ p, Event.openFile p ∉ (download_image hashFn now nowIso url resp faults st).2.2)) ∧
    (∀ (hashFn : List Nat → String) (now nowIso url : String) (resp : Response)
        (faults : Faults) (st : SysState) (n : Int),
      is_valid_url url = true →
      (faults.headResult = none ∨ ∃ hr, faults.headResult = some hr ∧
        validate_response_headers max_file_size hr = none) →
      faults.getError = none → resp.status < 400 →
      validate_response_headers max_file_size resp = none →
      is_duplicate (hashFn resp.content) st.memLedger = false →
      declared_content_length resp = some n → n ≤ (max_file_size : Int) →
      faults.writeFailsAt = none →
      resp.content.length > max_file_size →
      (download_image hashFn now nowIso url resp faults st).1 =
          Outcome.rejectedTooLargeStream ∧
        (download_image hashFn now nowIso url resp faults st).2.1.files = st.files) := by
  constructor
  · intro hashFn now nowIso url resp faults st cl n hv hh hg hs hct hcl hpi hbig
    have hvrh := vrh_too_large resp cl n hct hcl hpi hbig
    rcases hh with hnone | hsome
    · have hrun : download_image hashFn now nowIso url resp faults st =
          (Outcome.rejectedTooLargeHeader, { st with dirMade := true },
           [Event.mkDir, Event.headRequest] ++ [Event.getRequest]) := by
        rw [download_image_head hashFn now nowIso url resp faults st hv (Or.inl hnone)]
        rw [after_head_reject hashFn now nowIso url resp faults
          { st with dirMade := true } [Event.mkDir, Event.headRequest] _ hg hs hvrh]
      rw [hrun]
      refine ⟨rfl, rfl, ?_⟩
      intro p
      simp
    · have hrun : download_image hashFn now nowIso url resp faults st =
          (Outcome.rejectedTooLargeHeader, { st with dirMade := true },
           [Event.mkDir] ++ [Event.headRequest]) := by
        rw [download_image]
        rw [if_neg (by simp [hv])]
        rw [hsome]
        simp only [hvrh]
      rw [hrun]
      refine ⟨rfl, rfl, ?_⟩
      intro p
      simp
  · intro hashFn now nowIso url resp faults st n hv hh hg hs hvrh hdup hdl hn hwf hbig
    have hrun : download_image hashFn now nowIso url resp faults st =
        (Outcome.rejectedTooLargeStream, { st with dirMade := true },
         [Event.mkDir, Event.headRequest] ++ [Event.getRequest] ++
          [Event.resolveFilename,
           Event.openFile (resolved_filepath url resp now { st with dirMade := true }),
           Event.removeFile (resolved_filepath url resp now { st with dirMade := true })]) := by
      rw [download_image_head hashFn now nowIso url resp faults st hv hh]
      rw [after_head_reduce hashFn now nowIso url resp faults { st with dirMade := true }
        [Event.mkDir, Event.headRequest] hg hs hvrh (by simpa using hdup)]
      rw [resolve_stream_big hashFn now nowIso url resp faults { st with dirMade := true }
        ([Event.mkDir, Event.headRequest] ++ [Event.getRequest]) n hdl hn hwf hbig]
    rw [hrun]
    exact ⟨rfl, rfl⟩

/-- Response declaring 100 MiB against the 50 MiB ceiling. -/
def respBig : Response := ⟨200, some "image/png", some "104857600", none, [1, 2, 3]⟩

/-- Response that streams one byte more than the 50 MiB ceiling without
declaring a Content-Length. -/
def respHuge : Response := ⟨200, some "image/png", none, none, List.replicate 52428801 0⟩

/-- Witness for C3: the spec's 100 MiB declared-length scenario and a
streamed-overflow run. -/
theorem C3_witness :
    ((download_image zeroHash "t" "d" "https://example.com/a.png" respBig noFaults
          emptyState).1 = Outcome.rejectedTooLargeHeader ∧
      (download_image zeroHash "t" "d" "https://example.com/a.png" respBig noFaults
          emptyState).2.1.files = emptyState.files ∧
      (∀ p, Event.openFile p ∉ (download_image zeroHash "t" "d"
          "https://example.com/a.png" respBig noFaults emptyState).2.2)) ∧
    ((download_image zeroHash "t" "d" "https://example.com/big.png" respHuge noFaults
          emptyState).1 = Outcome.rejectedTooLargeStream ∧
      (download_image zeroHash "t" "d" "https://example.com/big.png" respHuge noFaults
          emptyState).2.1.files = emptyState.files) := by
  constructor
  · exact C3_size_ceiling.1 zeroHash "t" "d" "https://example.com/a.png" respBig
      noFaults emptyState "104857600" 104857600 (by decide) (Or.inl rfl) rfl
      (by decide) (Or.inr (by decide)) rfl (by decide) (by decide)
  · have hhuge : respHuge.content.length > max_file_size := by
      show (List.replicate 52428801 (0 : Nat)).length > max_file_size
      rw [List.length_replicate, max_file_size]
      norm_num
    exact C3_size_ceiling.2 zeroHash "t" "d" "https://example.com/big.png" respHuge
      noFaults emptyState 0 (by decide) (Or.inl rfl) rfl (by decide) (by decide) rfl
      rfl (by decide) rfl hhuge

/-- Claim C9: when writing the ledger file fails during the final append, the
run still reports success, the downloaded file stays on disk and admitted,
the in-memory ledger holds the new entry, the persisted ledger is left stale,
and the trace carries the warning instead of the persist event. -/
theorem C9_ledger_write_warning (hashFn : List Nat → String)
    (now nowIso url : String) (resp : Response) (faults : Faults) (st : SysState)
    (n : Int)
    (hv : is_valid_url url = true)
    (hh : faults.headResult = none ∨ ∃ hr, faults.headResult = some hr ∧
      validate_response_headers max_file_size hr = none)
    (hg : faults.getError = none) (hs : resp.status < 400)
    (hvrh : validate_response_headers max_file_size resp = none)
    (hdup : is_duplicate (hashFn resp.content) st.memLedger = false)
    (hdl : declared_content_length resp = some n)
    (hn : n ≤ (max_file_size : Int))
    (hwf : faults.writeFailsAt = none)
    (hlen : resp.content.length ≤ max_file_size)
    (hne : resp.content ≠ [])
    (hlwf : faults.ledgerWriteFails = true) :
    (download_image hashFn now nowIso url resp faults st).1 =
        Outcome.success (resolved_filepath url resp now { st with dirMade := true })
          resp.content.length ∧
      (download_image hashFn now nowIso url resp faults st).2.1.memLedger =
        st.memLedger ++
          [⟨hashFn resp.content, url,
            resolved_filepath url resp now { st with dirMade := true },
            (resp.content.length : Int), nowIso⟩] ∧
      (download_image hashFn now nowIso url resp faults st).2.1.diskLedger =
        st.diskLedger ∧
      resolved_filepath url resp now { st with dirMade := true } ∈
        (download_image hashFn now nowIso url resp faults st).2.1.files.map Prod.fst ∧
      Event.ledgerWarn ∈ (download_image hashFn now nowIso url resp faults st).2.2 := by
  have hrun := download_image_head hashFn now nowIso url resp faults st hv hh
  rw [after_head_reduce hashFn now nowIso url resp faults { st with dirMade := true }
    [Event.mkDir, Event.headRequest] hg hs hvrh (by simpa using hdup)] at hrun
  rw [resolve_success hashFn now nowIso url resp faults { st with dirMade := true }
    ([Event.mkDir, Event.headRequest] ++ [Event.getRequest]) n hdl hn hwf hlen hne]
    at hrun
  rw [hlwf] at hrun
  simp only [if_pos rfl] at hrun
  rw [hrun]
  refine ⟨rfl, rfl, rfl, ?_, ?_⟩
  · simp
  · simp

/-- Faults of the C9 witness: only the ledger write fails. -/
def ledgerFaults : Faults := ⟨none, none, none, true⟩

/-- Witness for C9: a concrete run whose ledger append fails. -/
theorem C9_witness :
    (download_image zeroHash "t" "2025-01-01T12:00:00" "https://example.com/cat.png"
        respOK ledgerFaults emptyState).1 =
      Outcome.success
        (resolved_filepath "https://example.com/cat.png" respOK "t"
          { emptyState with dirMade := true }) respOK.content.length ∧
    (download_image zeroHash "t" "2025-01-01T12:00:00" "https://example.com/cat.png"
        respOK ledgerFaults emptyState).2.1.memLedger =
      emptyState.memLedger ++
        [⟨zeroHash respOK.content, "https://example.com/cat.png",
          resolved_filepath "https://example.com/cat.png" respOK "t"
            { emptyState with dirMade := true },
          (respOK.content.length : Int), "2025-01-01T12:00:00"⟩] ∧
    (download_image zeroHash "t" "2025-01-01T12:00:00" "https://example.com/cat.png"
        respOK ledgerFaults emptyState).2.1.diskLedger = emptyState.diskLedger ∧
    resolved_filepath "https://example.com/cat.png" respOK "t"
        { emptyState with dirMade := true } ∈
      (download_image zeroHash "t" "2025-01-01T12:00:00" "https://example.com/cat.png"
        respOK ledgerFaults emptyState).2.1.files.map Prod.fst ∧
    Event.ledgerWarn ∈ (download_image zeroHash "t" "2025-01-01T12:00:00"
      "https://example.com/cat.png" respOK ledgerFaults emptyState).2.2 := by
  exact C9_ledger_write_warning zeroHash "t" "2025-01-01T12:00:00"
    "https://example.com/cat.png" respOK ledgerFaults emptyState 3 (by decide)
    (Or.inl rfl) rfl (by decide) (by decide) rfl rfl (by decide) rfl (by decide)
    (by decide) rfl

/-- Claim C6: the filename resolver only ever returns a safe name — a safe
`Content-Disposition` candidate verbatim, a safe URL basename verbatim, or a
wholesale time-stamped default — so an unsafe candidate (path traversal,
forbidden character, over-length) is never returned, literally or partially
sanitized.  The hypothesis states that the timestamp itself contains no
forbidden text, as `strftime('%Y%m%d_%H%M%S')` guarantees. -/
theorem C6_resolver_safe (url : String) (resp : Response) (now : String)
    (hnow : is_safe_filename ("safe_image_" ++ now ++ ".jpg") = true) :
    is_safe_filename (extract_filename url resp now) = true ∧
      (∀ c, is_safe_filename c = false → extract_filename url resp now ≠ c) ∧
      ((∃ c, cd_candidate resp = some c ∧ extract_filename url resp now = c) ∨
        extract_filename url resp now = url_candidate url ∨
        extract_filename url resp now =
          "image_" ++ now ++ get_extension_from_content_type (ctype_part resp.contentType) ∨
        extract_filename url resp now = "safe_image_" ++ now ++ ".jpg") := by
  refine ⟨extract_filename_safe url resp now hnow, ?_,
    extract_filename_forms url resp now⟩
  intro c hc heq
  have hsafe := extract_filename_safe url resp now hnow
  rw [heq, hc] at hsafe
  simp at hsafe

/-- Response whose Content-Disposition filename attempts path traversal. -/
def respTraversal : Response :=
  ⟨200, some "image/png", none, some "attachment; filename=\"../../etc/passwd\"", [1]⟩

/-- Witness for C6: a traversal candidate from Content-Disposition is not
returned; the resolver yields a safe name. -/
theorem C6_witness :
    is_safe_filename (extract_filename "https://example.com/x.png" respTraversal
      "20250101_120000") = true ∧
    extract_filename "https://example.com/x.png" respTraversal "20250101_120000" ≠
      "../../etc/passwd" := by
  have h := C6_resolver_safe "https://example.com/x.png" respTraversal
    "20250101_120000" (by decide)
  exact ⟨h.1, h.2.1 "../../etc/passwd" (by decide)⟩

/-- Claim C7: `get_unique_filepath` returns `directory/filename` unchanged
when unused; otherwise it probes `stem_1.ext`, `stem_2.ext`, … from 1,
returning the first unused probe; the result never names an existing file
(determinism is immediate since it is a pure function of the snapshot), and
after creating a file at the result a further call returns a different
path. -/
theorem C7_unique_path (snap : List String) (dir filename : String) :
    (mkPath dir filename ∉ snap →
      get_unique_filepath snap dir filename = mkPath dir filename) ∧
    get_unique_filepath snap dir filename ∉ snap ∧
    (mkPath dir filename ∈ snap →
      ∃ j, 1 ≤ j ∧
        get_unique_filepath snap dir filename =
          mkPath dir (probeName (splitext filename).1 (splitext filename).2 j) ∧
        ∀ i, 1 ≤ i → i < j →
          mkPath dir (probeName (splitext filename).1 (splitext filename).2 i) ∈ snap) ∧
    get_unique_filepath (get_unique_filepath snap dir filename :: snap) dir filename ≠
      get_unique_filepath snap dir filename := by
  refine ⟨?_, get_unique_filepath_not_mem snap dir filename, ?_, ?_⟩
  · intro hnm
    rw [get_unique_filepath, if_neg hnm]
  · intro hm
    rw [get_unique_filepath, if_pos hm]
    obtain ⟨i, hi, hnot⟩ := probe_exists snap dir (splitext filename).1
      (splitext filename).2
    obtain ⟨j, heq, hjn, hjm⟩ := probeLoop_spec snap dir (splitext filename).1
      (splitext filename).2 (snap.length + 1) 1 ⟨i, hi, hnot⟩
    refine ⟨1 + j, by omega, heq, ?_⟩
    intro i' h1 h2
    have hi' : i' = 1 + (i' - 1) := by omega
    rw [hi']
    exact hjm (i' - 1) (by omega)
  · intro heq
    have h4 := get_unique_filepath_not_mem
      (get_unique_filepath snap dir filename :: snap) dir filename
    rw [heq] at h4
    exact h4 (List.mem_cons_self _ _)

/-- Witness for C7: concrete snapshots around `Fetched_Images/cat.png`. -/
theorem C7_witness :
    get_unique_filepath [] "Fetched_Images" "cat.png" =
      mkPath "Fetched_Images" "cat.png" ∧
    get_unique_filepath ["Fetched_Images/cat.png"] "Fetched_Images" "cat.png" ∉
      ["Fetched_Images/cat.png"] ∧
    get_unique_filepath
        (get_unique_filepath ["Fetched_Images/cat.png"] "Fetched_Images" "cat.png" ::
          ["Fetched_Images/cat.png"]) "Fetched_Images" "cat.png" ≠
      get_unique_filepath ["Fetched_Images/cat.png"] "Fetched_Images" "cat.png" := by
  refine ⟨(C7_unique_path [] "Fetched_Images" "cat.png").1 (by simp),
    (C7_unique_path ["Fetched_Images/cat.png"] "Fetched_Images" "cat.png").2.1,
    (C7_unique_path ["Fetched_Images/cat.png"] "Fetched_Images" "cat.png").2.2.2⟩

/-- Claim C8: serialising a ledger, reading it back, and re-serialising gives
the same JSON document entry-for-entry, and every serialised entry is an
object with exactly the string fields `hash`, `url`, `filepath`,
`download_date` and the integer field `file_size`. -/
theorem C8_ledger_roundtrip (l : List LedgerEntry) :
    jsonToLedger? (ledgerToJson l) = some l ∧
    ledgerToJson ((jsonToLedger? (ledgerToJson l)).getD []) = ledgerToJson l ∧
    ∀ e ∈ l, entryToJson e =
      Json.obj [("hash", Json.str e.hash), ("url", Json.str e.url),
                ("filepath", Json.str e.filepath), ("file_size", Json.num e.file_size),
                ("download_date", Json.str e.download_date)] := by
  have h1 : jsonToLedger? (ledgerToJson l) = some l := entriesOfJson_map l
  refine ⟨h1, ?_, ?_⟩
  · rw [h1]
    rfl
  · intro e _
    rfl

/-- Witness for C8: the round trip applied to a one-entry ledger. -/
theorem C8_witness :
    jsonToLedger? (ledgerToJson [entryCat]) = some [entryCat] ∧
    entryToJson entryCat =
      Json.obj [("hash", Json.str entryCat.hash), ("url", Json.str entryCat.url),
                ("filepath", Json.str entryCat.filepath),
                ("file_size", Json.num entryCat.file_size),
                ("download_date", Json.str entryCat.download_date)] := by
  exact ⟨(C8_ledger_roundtrip [entryCat]).1,
    (C8_ledger_roundtrip [entryCat]).2.2 entryCat (by simp)⟩
